import Mathlib

/-!
Verification of the Attendance Ledger and Reconciliation Engine of the
Attending-System backend.

Timestamps are modelled as integers counting minutes since an epoch, in UTC.
A JavaScript Date carries such a UTC instant; day bucketing then happens in
one of two conventions found in the source:
  - the scan path buckets by the UTC calendar day
    (date.toISOString().split('T')[0] in students.controller.js), and
  - the sweep paths bucket by the local calendar day
    (setHours(0,0,0,0), toDateString() in the attendance service),
so day helpers take the local-timezone offset tz (in minutes, e.g. 330 for
Asia/Colombo, the timezone hard-coded elsewhere in the source) where the
local convention is used.

Statuses are the literal strings of the source.
-/

def minutesPerDay : Int := 1440

/-- Day index of a timestamp under the UTC convention: this is the bucketing
computed by date.toISOString().split('T')[0] in the scan path
(students.controller.js markAttendance). -/
def utcDayOf (t : Int) : Int := t.fdiv minutesPerDay

/-- Day index of a timestamp under the local convention with offset tz
minutes: the bucketing computed by setHours(0,0,0,0) / toDateString()
comparisons in the sweep paths. -/
def localDayOf (tz t : Int) : Int := (t + tz).fdiv minutesPerDay

/-- The timestamp of local midnight of the local day of t
(new Date(t) followed by setHours(0,0,0,0)). -/
def localMidnightOf (tz t : Int) : Int := localDayOf tz t * minutesPerDay - tz

/-- The timestamp produced by new Date(t) followed by setHours(18,30,0,0):
18:30 local time on the local calendar day of t. -/
def cutoffOf (tz t : Int) : Int := localDayOf tz t * minutesPerDay - tz + (18 * 60 + 30)

/-- One attendance record of a student's attendanceHistory
(schema fields used by the verified code paths). -/
structure AttendanceRecord where
  date : Int
  status : String
  entryTime : Option Int
  leaveTime : Option Int
  deriving Repr, DecidableEq

/-- A student document (fields used by the verified code paths). -/
structure Student where
  name : String
  status : String
  parent_telephone : Option String
  attendanceHistory : List AttendanceRecord
  lastAttendance : Option Int
  attendancePercentage : Rat
  deriving Repr, DecidableEq

/-- record.status === 'present' || record.status === 'entered', the
present-like test used by the aggregate recomputation in the sweeps. -/
def isPresentLike (r : AttendanceRecord) : Bool :=
  r.status == "present" || r.status == "entered"

/-- The aggregate recomputation inlined in both sweeps:
totalRecords > 0 ? (presentRecords / totalRecords) * 100 : 0. -/
def computePercentage (h : List AttendanceRecord) : Rat :=
  if h.length > 0 then ((h.countP (fun r => isPresentLike r) : Rat) / (h.length : Rat)) * 100
  else 0

/-- The filter of checkAllPastAttendance (attendance service, lines 128-132):
record.date < today, status in {entered, present}, leaveTime null.
Here today is the timestamp of the current local midnight. -/
def isIncompletePast (today : Int) (r : AttendanceRecord) : Bool :=
  decide (r.date < today) && (r.status == "entered" || r.status == "present")
    && !r.leaveTime.isSome

/-- Closing one incomplete record in checkAllPastAttendance (lines 134-141):
leaveTime becomes 18:30 local of the record's own date, status becomes left. -/
def closeRecord (tz : Int) (r : AttendanceRecord) : AttendanceRecord :=
  { r with leaveTime := some (cutoffOf tz r.date), status := "left" }

/-- Effect of the loop of checkAllPastAttendance on a history: every
incomplete past record is closed in place, every other record untouched. -/
def sweepHistory (tz today : Int) (h : List AttendanceRecord) : List AttendanceRecord :=
  h.map (fun r => if isIncompletePast today r then closeRecord tz r else r)

/-- Head of the records sorted descending by date
([...incompleteRecords].sort((a, b) => b.date - a.date)[0]): the first
record carrying the maximal date. -/
def pickLatest : List AttendanceRecord → Option AttendanceRecord
  | [] => none
  | r :: rs =>
    match pickLatest rs with
    | none => some r
    | some m => if m.date > r.date then some m else some r

/-- Per-student body of checkAllPastAttendance (lines 126-158): close all
incomplete past records, set lastAttendance to the leaveTime of the newest
closed record, recompute the percentage; untouched when nothing is
incomplete. -/
def sweepStudent (tz today : Int) (s : Student) : Student :=
  let incomplete := s.attendanceHistory.filter (isIncompletePast today)
  match pickLatest (incomplete.map (closeRecord tz)) with
  | none => s
  | some lastRecord =>
    let newHist := sweepHistory tz today s.attendanceHistory
    { s with
      attendanceHistory := newHist
      lastAttendance := lastRecord.leaveTime
      attendancePercentage := computePercentage newHist }

/-- Whether checkAllPastAttendance attempts a guardian notification for this
student: it had an incomplete record and a parent telephone number. -/
def sweepNotifies (today : Int) (s : Student) : Bool :=
  !(s.attendanceHistory.filter (isIncompletePast today)).isEmpty
    && s.parent_telephone.isSome

/-- checkAllPastAttendance over the whole ledger: the resulting student
documents and the names of the students a notification is attempted for.
The database query selects exactly the students with an incomplete past
record; the others are untouched, which sweepStudent reproduces. -/
def checkAllPastAttendance (tz today : Int) (ledger : List Student) :
    List Student × List String :=
  (ledger.map (sweepStudent tz today),
   (ledger.filter (sweepNotifies today)).map (fun s => s.name))

/-- Eligibility test of autoMarkLeaveAttendance's findIndex (lines 34-38):
record on today's local calendar day (toDateString equality), status in
{entered, present}, leaveTime null. -/
def isTodayIncomplete (tz today : Int) (r : AttendanceRecord) : Bool :=
  localDayOf tz r.date == localDayOf tz today
    && (r.status == "entered" || r.status == "present") && !r.leaveTime.isSome

/-- Close the record at index i in place: leaveTime := leaveT, status left
(autoMarkLeaveAttendance lines 45-46). -/
def closeAt (leaveT : Int) : Nat → List AttendanceRecord → List AttendanceRecord
  | _, [] => []
  | 0, r :: rs => { r with leaveTime := some leaveT, status := "left" } :: rs
  | Nat.succ n, r :: rs => r :: closeAt leaveT n rs

/-- Per-student body of autoMarkLeaveAttendance (lines 33-57): locate the
first eligible record of today, close it with leaveT (today's 18:30), set
lastAttendance := leaveT and recompute the percentage; none when the student
has no eligible record (the loop then continues without saving). -/
def autoMarkStudent (tz today leaveT : Int) (s : Student) : Option Student :=
  match s.attendanceHistory.findIdx? (isTodayIncomplete tz today) with
  | none => none
  | some i =>
    let newHist := closeAt leaveT i s.attendanceHistory
    some { s with
      attendanceHistory := newHist
      lastAttendance := some leaveT
      attendancePercentage := computePercentage newHist }

/-- Observable effects of the autoMarkLeaveAttendance loop, in order: the
document save (line 59) and the guardian notification attempt with its
outcome (lines 70-77). -/
inductive AutoMarkEvent where
  | saved (s : Student)
  | notifyAttempt (name : String) (ok : Bool)
  deriving Repr, DecidableEq

/-- autoMarkLeaveAttendance over the selected students: per student the
mutated document is saved first (line 59), then, when a parent telephone is
on file, one notification is attempted (line 71) whose success is given by
the external notifyOk outcome; a failed or throwing send is only logged
(lines 75-77 and the per-student catch at line 83) and the loop continues.
Returns the saved documents and the full event trace. -/
def autoMarkLeaveAttendance (tz today leaveT : Int) (notifyOk : String → Bool) :
    List Student → List Student × List AutoMarkEvent
  | [] => ([], [])
  | s :: rest =>
    match autoMarkStudent tz today leaveT s with
    | none => autoMarkLeaveAttendance tz today leaveT notifyOk rest
    | some s2 =>
      let tail := autoMarkLeaveAttendance tz today leaveT notifyOk rest
      (s2 :: tail.1,
       (AutoMarkEvent.saved s2 ::
         (if s2.parent_telephone.isSome then
           [AutoMarkEvent.notifyAttempt s2.name (notifyOk s2.name)]
         else [])) ++ tail.2)

/-- The first record of the history falling on UTC day d: the findIndex on
entry.date.toISOString().split('T')[0] === todayDate
(students.controller.js lines 131-133). -/
def findTodayRecord (d : Int) : List AttendanceRecord → Option AttendanceRecord
  | [] => none
  | r :: rs => if utcDayOf r.date == d then some r else findTodayRecord d rs

/-- The statusToSave decision of the scan controller
(students.controller.js lines 135-149). -/
def decideStatus (todayRecord : Option AttendanceRecord) : String :=
  match todayRecord with
  | none => "entered"
  | some r =>
    if r.leaveTime.isSome then "entered"
    else if r.entryTime.isSome then "left"
    else "entered"

/-- Status the scan path saves for a scan at instant now against history h. -/
def scanStatusOf (now : Int) (h : List AttendanceRecord) : String :=
  decideStatus (findTodayRecord (utcDayOf now) h)

/-- Modelled from the spec: the record created on the first scan of a day.
The Student.markAttendance model method is declared in
src/models/student.model.js, which is absent from the source tree (only its
callers are present); spec 4.1 and the record lifecycle of spec 3 give:
a new record carries the day (normalized to midnight), the saved status and
entryTime = now. -/
def modelNewRecord (d now : Int) (st : String) : AttendanceRecord :=
  if st == "left" then
    { date := d * minutesPerDay, status := st, entryTime := none, leaveTime := some now }
  else
    { date := d * minutesPerDay, status := st, entryTime := some now, leaveTime := none }

/-- Modelled from the spec: in-place mutation of the day's existing record by
the missing Student.markAttendance model method. Saving left closes the day
(leaveTime := now); saving any other status re-opens it with a fresh
entryTime and no leaveTime (spec 4.1, re-open). The date is never changed. -/
def modelMutateRecord (now : Int) (st : String) (r : AttendanceRecord) : AttendanceRecord :=
  if st == "left" then { r with status := st, leaveTime := some now }
  else { r with status := st, entryTime := some now, leaveTime := none }

/-- Modelled from the spec: the missing Student.markAttendance model method at
the history level. Locate the record of day d; mutate it in place when it
exists, append a fresh record otherwise (spec 4.1: the one-record-per-day
invariant must hold, a duplicate day record is never created). -/
def modelMarkAttendance (d now : Int) (st : String) :
    List AttendanceRecord → List AttendanceRecord
  | [] => [modelNewRecord d now st]
  | r :: rs =>
    if utcDayOf r.date == d then modelMutateRecord now st r :: rs
    else r :: modelMarkAttendance d now st rs

/-- The scan flow of the markAttendance controller: decide statusToSave from
today's record (source, lines 128-149), then apply the model method. -/
def markAttendance (now : Int) (h : List AttendanceRecord) : List AttendanceRecord :=
  modelMarkAttendance (utcDayOf now) now (scanStatusOf now h) h

/-- The statuses the manual-override entry point accepts
(upload.controller.js line 62). -/
def validStatus : List String := ["entered", "left", "present", "absent"]

/-- markStudentAttendance (upload.controller.js lines 40-77): an invalid
status is answered with the invalid-status 400 response before the student is
touched; a valid one is forwarded to the model method. The Bool is true iff
the request was accepted. -/
def markStudentAttendance (st : String) (now : Int) (s : Student) : Student × Bool :=
  if validStatus.contains st then
    ({ s with attendanceHistory := modelMarkAttendance (utcDayOf now) now st s.attendanceHistory },
     true)
  else (s, false)

/-- One row of the day-level read views. -/
structure DayViewEntry where
  name : String
  status : String
  entryTime : Option Int
  leaveTime : Option Int
  deriving Repr, DecidableEq

/-- Stable insertion for the descending-by-date sort
(sort((a, b) => b.date - a.date)). -/
def insertDesc (r : AttendanceRecord) : List AttendanceRecord → List AttendanceRecord
  | [] => [r]
  | x :: xs => if x.date > r.date then x :: insertDesc r xs else r :: x :: xs

/-- Stable descending-by-date sort of today's records
(upload.controller.js line 298). -/
def sortDesc : List AttendanceRecord → List AttendanceRecord
  | [] => []
  | r :: rs => insertDesc r (sortDesc rs)

/-- First candidate entry time in sorted order: record.entryTime || record.date
of the first record with status entered or an entryTime set
(upload.controller.js lines 307-313). -/
def firstEntryTime : List AttendanceRecord → Option Int
  | [] => none
  | r :: rs =>
    if r.status == "entered" || r.entryTime.isSome then some (r.entryTime.getD r.date)
    else firstEntryTime rs

/-- First candidate leave time in sorted order: record.leaveTime || record.date
of the first record with status left or a leaveTime set
(upload.controller.js lines 315-320). -/
def firstLeaveTime : List AttendanceRecord → Option Int
  | [] => none
  | r :: rs =>
    if r.status == "left" || r.leaveTime.isSome then some (r.leaveTime.getD r.date)
    else firstLeaveTime rs

/-- Row built by getScannedStudentsToday for one student: the fallback row
status absent with null times when no record falls on UTC day d
(upload.controller.js lines 330-338), else the latest record's status with
the extracted entry and leave times (lines 296-346). -/
def scannedTodayEntry (d : Int) (s : Student) : DayViewEntry :=
  match sortDesc (s.attendanceHistory.filter (fun r => utcDayOf r.date == d)) with
  | [] => { name := s.name, status := "absent", entryTime := none, leaveTime := none }
  | b :: rest =>
    { name := s.name
      status := b.status
      entryTime := some ((firstEntryTime (b :: rest)).getD b.date)
      leaveTime := firstLeaveTime (b :: rest) }

/-- getScannedStudentsToday (upload.controller.js lines 267-346): every
active student is fetched and mapped to a row; day boundaries use
setUTCHours, hence the UTC day convention. Output order is by index number
in the source; the claims are order-independent, input order is kept. -/
def getScannedStudentsToday (d : Int) (students : List Student) : List DayViewEntry :=
  (students.filter (fun s => s.status == "active")).map (scannedTodayEntry d)

/-- Whether a student has a record on local day d: the $elemMatch date-range
condition of the getAttendanceByDate query (upload.controller.js
lines 396-405, luxon startOf/endOf day, local convention). -/
def hasRecordOn (tz d : Int) (s : Student) : Bool :=
  s.attendanceHistory.any (fun r => localDayOf tz r.date == d)

/-- Row built by getAttendanceByDate for one matched student
(upload.controller.js lines 423-438): the first record on the local day d,
with an absent fallback when the inner find misses. -/
def attendanceByDateEntry (tz d : Int) (s : Student) : DayViewEntry :=
  match s.attendanceHistory.find? (fun r => localDayOf tz r.date == d) with
  | none => { name := s.name, status := "absent", entryTime := none, leaveTime := none }
  | some r =>
    { name := s.name, status := r.status, entryTime := r.entryTime, leaveTime := r.leaveTime }

/-- getAttendanceByDate (upload.controller.js lines 373-465): only students
matched by the $elemMatch query are returned; a student with no record on
the requested day is not part of the response at all. -/
def getAttendanceByDate (tz d : Int) (students : List Student) : List DayViewEntry :=
  (students.filter (hasRecordOn tz d)).map (attendanceByDateEntry tz d)

/-- Maximum of a list of timestamps. -/
def maxTime : List Int → Option Int
  | [] => none
  | t :: ts =>
    match maxTime ts with
    | none => some t
    | some m => some (max t m)

/-- Written from the spec's words, for comparison with the code: the latest
non-null leaveTime across the whole history (spec 4.2 lastAttendance rule). -/
def specLatestLeave (h : List AttendanceRecord) : Option Int :=
  maxTime (h.filterMap (fun r => r.leaveTime))

/-- The one-record-per-day ledger invariant (spec 3), under the scan path's
own day convention: no two records of a history share a calendar day. -/
def oneRecordPerDay (h : List AttendanceRecord) : Prop :=
  h.Pairwise (fun a b => utcDayOf a.date ≠ utcDayOf b.date)

/-- Demo student for concrete checks: an open record on local day 0 and an
already closed record on local day 2 whose leaveTime (20:00, t = 4080) is
the latest leaveTime of the whole history. -/
def s8demo : Student :=
  { name := "A"
    status := "active"
    parent_telephone := some "0771234567"
    attendanceHistory :=
      [{ date := 0, status := "entered", entryTime := some 480, leaveTime := none },
       { date := 2880, status := "left", entryTime := some 3360, leaveTime := some 4080 }]
    lastAttendance := some 4080
    attendancePercentage := 50 }

/-- Demo student for concrete checks: active, empty history. -/
def sAbsDemo : Student :=
  { name := "B"
    status := "active"
    parent_telephone := none
    attendanceHistory := []
    lastAttendance := none
    attendancePercentage := 0 }

/-- Demo student for the same-day sweep: one open entered record today. -/
def autoDemo : Student :=
  { name := "C"
    status := "active"
    parent_telephone := none
    attendanceHistory :=
      [{ date := 0, status := "entered", entryTime := some 480, leaveTime := none }]
    lastAttendance := none
    attendancePercentage := 100 }

/-- The document the same-day sweep persists for autoDemo when run on local
day 0 with the 18:30 cutoff t = 1110. -/
def autoDemoRes : Student :=
  { name := "C"
    status := "active"
    parent_telephone := none
    attendanceHistory := closeAt 1110 0 autoDemo.attendanceHistory
    lastAttendance := some 1110
    attendancePercentage := computePercentage (closeAt 1110 0 autoDemo.attendanceHistory) }

theorem isIncompletePast_closeRecord (tz today : Int) (r : AttendanceRecord) :
    isIncompletePast today (closeRecord tz r) = false := by
  simp [isIncompletePast, closeRecord]

theorem isIncompletePast_after_sweep (tz today : Int) (r : AttendanceRecord) :
    isIncompletePast today
      (if isIncompletePast today r then closeRecord tz r else r) = false := by
  cases hb : isIncompletePast today r
  · simp [hb]
  · simp [isIncompletePast_closeRecord]

theorem sweepHistory_filter_nil (tz today : Int) (h : List AttendanceRecord) :
    (sweepHistory tz today h).filter (isIncompletePast today) = [] := by
  rw [List.filter_eq_nil_iff]
  intro r hr
  obtain ⟨x, _, rfl⟩ := List.mem_map.mp hr
  simp [isIncompletePast_after_sweep]

theorem map_ite_id (p : AttendanceRecord → Bool) (f : AttendanceRecord → AttendanceRecord) :
    ∀ h : List AttendanceRecord, (∀ r ∈ h, p r = false) →
      h.map (fun r => if p r then f r else r) = h
  | [], _ => rfl
  | a :: t, hall => by
    have ha := hall a (List.mem_cons_self a t)
    simp [ha, map_ite_id p f t (fun r hr => hall r (List.mem_cons_of_mem a hr))]

theorem pickLatest_cons (r : AttendanceRecord) (rs : List AttendanceRecord) :
    pickLatest (r :: rs) =
      match pickLatest rs with
      | none => some r
      | some m => if m.date > r.date then some m else some r := rfl

theorem pickLatest_isSome (r : AttendanceRecord) (rs : List AttendanceRecord) :
    ∃ m, pickLatest (r :: rs) = some m := by
  rw [pickLatest_cons]
  cases pickLatest rs with
  | none => exact ⟨r, rfl⟩
  | some m =>
    by_cases hd : m.date > r.date
    · exact ⟨m, by simp [hd]⟩
    · exact ⟨r, by simp [hd]⟩

theorem sweepStudent_untouched (tz today : Int) (s : Student)
    (hnil : s.attendanceHistory.filter (isIncompletePast today) = []) :
    sweepStudent tz today s = s := by
  simp [sweepStudent, hnil, pickLatest]

theorem sweepHistory_of_filter_nil (tz today : Int) (h : List AttendanceRecord)
    (hnil : h.filter (isIncompletePast today) = []) : sweepHistory tz today h = h := by
  refine map_ite_id _ _ h (fun r hr => ?_)
  have := List.filter_eq_nil_iff.mp hnil r hr
  simpa using this

theorem sweepStudent_history_eq (tz today : Int) (s : Student) :
    (sweepStudent tz today s).attendanceHistory
      = sweepHistory tz today s.attendanceHistory := by
  by_cases hnil : s.attendanceHistory.filter (isIncompletePast today) = []
  · rw [sweepStudent_untouched tz today s hnil, sweepHistory_of_filter_nil tz today _ hnil]
  · obtain ⟨r, rs, hcons⟩ := List.exists_cons_of_ne_nil hnil
    obtain ⟨m, hm⟩ :=
      pickLatest_isSome (closeRecord tz r) (rs.map (closeRecord tz))
    simp only [sweepStudent, hcons, List.map_cons] at *
    rw [hm]

theorem pickLatest_eq_none_iff (l : List AttendanceRecord) :
    pickLatest l = none ↔ l = [] := by
  cases l with
  | nil => simp [pickLatest]
  | cons r rs =>
    obtain ⟨m, hm⟩ := pickLatest_isSome r rs
    simp [hm]

theorem pickLatest_mem :
    ∀ {l : List AttendanceRecord} {m : AttendanceRecord}, pickLatest l = some m → m ∈ l := by
  intro l
  induction l with
  | nil => intro m hm; cases hm
  | cons r rs ih =>
    intro m hm
    rw [pickLatest_cons] at hm
    cases hp : pickLatest rs with
    | none =>
      rw [hp] at hm
      have hm2 : some r = some m := hm
      cases hm2
      exact List.mem_cons_self r rs
    | some m2 =>
      rw [hp] at hm
      have hm2 : (if m2.date > r.date then some m2 else some r) = some m := hm
      by_cases hd : m2.date > r.date
      · rw [if_pos hd] at hm2; cases hm2; exact List.mem_cons_of_mem r (ih hp)
      · rw [if_neg hd] at hm2; cases hm2; exact List.mem_cons_self r rs

theorem pickLatest_max :
    ∀ {l : List AttendanceRecord} {m : AttendanceRecord}, pickLatest l = some m →
      ∀ x ∈ l, x.date ≤ m.date := by
  intro l
  induction l with
  | nil => intro m hm; cases hm
  | cons r rs ih =>
    intro m hm x hx
    rw [pickLatest_cons] at hm
    cases hp : pickLatest rs with
    | none =>
      rw [hp] at hm
      have hm2 : some r = some m := hm
      cases hm2
      have hrs : rs = [] := (pickLatest_eq_none_iff rs).mp hp
      subst hrs
      have hxr : x = r := by simpa using hx
      rw [hxr]
    | some m2 =>
      rw [hp] at hm
      have hm2 : (if m2.date > r.date then some m2 else some r) = some m := hm
      rcases List.mem_cons.mp hx with hxr | hxm
      · by_cases hd : m2.date > r.date
        · rw [if_pos hd] at hm2; cases hm2; rw [hxr]; exact le_of_lt hd
        · rw [if_neg hd] at hm2; cases hm2; rw [hxr]
      · have hle := ih hp x hxm
        by_cases hd : m2.date > r.date
        · rw [if_pos hd] at hm2; cases hm2; exact hle
        · rw [if_neg hd] at hm2; cases hm2
          exact le_trans hle (not_lt.mp hd)

theorem closeRecord_date (tz : Int) (r : AttendanceRecord) :
    (closeRecord tz r).date = r.date := rfl

theorem pickLatest_map_closeRecord (tz : Int) :
    ∀ (l : List AttendanceRecord) (m : AttendanceRecord), pickLatest l = some m →
      pickLatest (l.map (closeRecord tz)) = some (closeRecord tz m) := by
  intro l
  induction l with
  | nil => intro m hm; cases hm
  | cons r rs ih =>
    intro m hm
    rw [pickLatest_cons] at hm
    rw [List.map_cons, pickLatest_cons]
    cases hp : pickLatest rs with
    | none =>
      rw [hp] at hm
      have hm2 : some r = some m := hm
      cases hm2
      have hrs : rs = [] := (pickLatest_eq_none_iff rs).mp hp
      subst hrs
      rfl
    | some m2 =>
      rw [hp] at hm
      have hm2 : (if m2.date > r.date then some m2 else some r) = some m := hm
      rw [ih m2 hp]
      by_cases hd : m2.date > r.date
      · rw [if_pos hd] at hm2
        cases hm2
        show (if (closeRecord tz m).date > (closeRecord tz r).date
              then some (closeRecord tz m) else some (closeRecord tz r))
            = some (closeRecord tz m)
        rw [closeRecord_date, closeRecord_date, if_pos hd]
      · rw [if_neg hd] at hm2
        cases hm2
        show (if (closeRecord tz m2).date > (closeRecord tz r).date
              then some (closeRecord tz m2) else some (closeRecord tz r))
            = some (closeRecord tz r)
        rw [closeRecord_date, closeRecord_date, if_neg hd]

/-- Claim C2: every open record (status entered or present, leaveTime null)
dated before today is closed by the backlog sweep with leaveTime 18:30 local
of the record's own date — a value depending only on the record's date, not
on the day the sweep runs — and status left. -/
theorem sweep_closes_open_record_at_own_cutoff (tz today : Int) (s : Student)
    (i : Nat) (hi : i < s.attendanceHistory.length)
    (hOpen : isIncompletePast today s.attendanceHistory[i] = true) :
    (sweepStudent tz today s).attendanceHistory
        = sweepHistory tz today s.attendanceHistory
    ∧ (sweepHistory tz today s.attendanceHistory).length = s.attendanceHistory.length
    ∧ ∃ hj : i < (sweepHistory tz today s.attendanceHistory).length,
        (sweepHistory tz today s.attendanceHistory)[i].leaveTime
            = some (cutoffOf tz s.attendanceHistory[i].date)
          ∧ (sweepHistory tz today s.attendanceHistory)[i].status = "left" := by
  refine ⟨sweepStudent_history_eq tz today s, List.length_map _ _, ?_⟩
  have hj : i < (sweepHistory tz today s.attendanceHistory).length := by
    rw [sweepHistory, List.length_map]; exact hi
  refine ⟨hj, ?_, ?_⟩ <;>
    simp [sweepHistory, List.getElem_map, hOpen, closeRecord]

/-- Witness for C2: a record three local days old (local day 0, entry 08:00)
swept on day 3 receives leaveTime 1110 = 18:30 of its own day 0, not 18:30
of the sweep day. -/
theorem sweep_closes_open_record_at_own_cutoff_witness :
    (isIncompletePast 4320 s8demo.attendanceHistory[0] = true)
    ∧ ((sweepStudent 0 4320 s8demo).attendanceHistory
          = sweepHistory 0 4320 s8demo.attendanceHistory
        ∧ (sweepHistory 0 4320 s8demo.attendanceHistory).length
            = s8demo.attendanceHistory.length
        ∧ ∃ hj : 0 < (sweepHistory 0 4320 s8demo.attendanceHistory).length,
            (sweepHistory 0 4320 s8demo.attendanceHistory)[0].leaveTime
                = some (cutoffOf 0 s8demo.attendanceHistory[0].date)
              ∧ (sweepHistory 0 4320 s8demo.attendanceHistory)[0].status = "left")
    ∧ cutoffOf 0 (0 : Int) = 1110 :=
  ⟨by decide,
   sweep_closes_open_record_at_own_cutoff 0 4320 s8demo 0 (by decide) (by decide),
   by decide⟩

/-- Claim C7: the startup backlog sweep is idempotent: a second run on the
result of the first changes no student document, closes nothing, and
attempts no notifications. -/
theorem startup_sweep_idempotent (tz today : Int) (L : List Student) :
    checkAllPastAttendance tz today (checkAllPastAttendance tz today L).1
      = ((checkAllPastAttendance tz today L).1, []) := by
  have hstu : ∀ s : Student,
      (sweepStudent tz today s).attendanceHistory.filter (isIncompletePast today) = [] := by
    intro s
    rw [sweepStudent_history_eq]
    exact sweepHistory_filter_nil tz today _
  have hfix : ∀ s : Student,
      sweepStudent tz today (sweepStudent tz today s) = sweepStudent tz today s :=
    fun s => sweepStudent_untouched tz today _ (hstu s)
  have hnot : ∀ s : Student, sweepNotifies today (sweepStudent tz today s) = false := by
    intro s
    simp [sweepNotifies, hstu s]
  unfold checkAllPastAttendance
  refine Prod.ext ?_ ?_
  · show (List.map (sweepStudent tz today) L).map (sweepStudent tz today)
        = L.map (sweepStudent tz today)
    rw [List.map_map]
    exact List.map_congr_left (fun s _ => hfix s)
  · show ((List.map (sweepStudent tz today) L).filter (sweepNotifies today)).map
          (fun s => s.name) = []
    rw [List.filter_eq_nil_iff.mpr]
    · rfl
    · intro s' hs'
      obtain ⟨s, _, rfl⟩ := List.mem_map.mp hs'
      simp [hnot s]

/-- Claim C8 counterexample: s8demo holds an already closed record whose
leaveTime 4080 (day 2, 20:00) is the latest leaveTime of the whole history;
the backlog sweep run on day 3 closes the older open day-0 record and sets
lastAttendance to 1110 (day 0, 18:30), the newest record it touched, not the
history-wide maximum 4080. -/
theorem sweep_lastAttendance_not_history_max :
    (sweepStudent 0 4320 s8demo).lastAttendance = some 1110
    ∧ specLatestLeave (sweepStudent 0 4320 s8demo).attendanceHistory = some 4080
    ∧ (sweepStudent 0 4320 s8demo).lastAttendance
        ≠ specLatestLeave (sweepStudent 0 4320 s8demo).attendanceHistory := by
  refine ⟨by decide, by decide, by decide⟩

/-- Claim C8 (amended): after the backlog sweep touches a student,
lastAttendance equals the own-date 18:30 cutoff of the newest record among
those the sweep itself closed — the maximum over the touched records, which
need not be the latest leaveTime of the whole history. -/
theorem sweep_lastAttendance_is_latest_touched (tz today : Int) (s : Student)
    (hne : s.attendanceHistory.filter (isIncompletePast today) ≠ []) :
    ∃ r ∈ s.attendanceHistory.filter (isIncompletePast today),
      (∀ r2 ∈ s.attendanceHistory.filter (isIncompletePast today), r2.date ≤ r.date)
      ∧ (sweepStudent tz today s).lastAttendance = some (cutoffOf tz r.date) := by
  obtain ⟨r0, rs0, hcons⟩ := List.exists_cons_of_ne_nil hne
  have hsome : ∃ m,
      pickLatest (s.attendanceHistory.filter (isIncompletePast today)) = some m := by
    rw [hcons]; exact pickLatest_isSome r0 rs0
  obtain ⟨m, hm⟩ := hsome
  refine ⟨m, pickLatest_mem hm, pickLatest_max hm, ?_⟩
  have hmap := pickLatest_map_closeRecord tz _ m hm
  simp [sweepStudent, hmap, closeRecord]

/-- Witness for C8 (amended): on s8demo swept on day 3, the only touched
record is the open day-0 record and lastAttendance becomes its own cutoff. -/
theorem sweep_lastAttendance_is_latest_touched_witness :
    ∃ r ∈ s8demo.attendanceHistory.filter (isIncompletePast 4320),
      (∀ r2 ∈ s8demo.attendanceHistory.filter (isIncompletePast 4320), r2.date ≤ r.date)
      ∧ (sweepStudent 0 4320 s8demo).lastAttendance = some (cutoffOf 0 r.date) :=
  sweep_lastAttendance_is_latest_touched 0 4320 s8demo (by decide)

/-- Claim C4: the recomputed attendancePercentage equals 100 times the count
of records with status present or entered divided by the total record count,
is 0 on an empty history, ignores records with status left, and is exactly
the value both sweeps store after mutating a student. -/
theorem percentage_recompute_formula (tz today tz2 today2 leaveT : Int)
    (h : List AttendanceRecord) (s s2 s3 : Student)
    (hne : h ≠ [])
    (hts : s.attendanceHistory.filter (isIncompletePast today) ≠ [])
    (hauto : autoMarkStudent tz2 today2 leaveT s2 = some s3) :
    computePercentage [] = 0
    ∧ computePercentage h
        = 100 * ((h.countP (fun r => isPresentLike r) : Rat)) / (h.length : Rat)
    ∧ (∀ r : AttendanceRecord, r.status = "left" → isPresentLike r = false)
    ∧ (sweepStudent tz today s).attendancePercentage
        = computePercentage (sweepStudent tz today s).attendanceHistory
    ∧ s3.attendancePercentage = computePercentage s3.attendanceHistory := by
  refine ⟨rfl, ?_, ?_, ?_, ?_⟩
  · rw [computePercentage, if_pos (by simpa using List.length_pos.mpr hne)]
    ring
  · intro r hr
    simp [isPresentLike, hr]
  · obtain ⟨r0, rs0, hcons⟩ := List.exists_cons_of_ne_nil hts
    have hsome : ∃ m,
        pickLatest ((s.attendanceHistory.filter (isIncompletePast today)).map
          (closeRecord tz)) = some m := by
      rw [hcons, List.map_cons]
      exact pickLatest_isSome _ _
    obtain ⟨m, hm⟩ := hsome
    simp [sweepStudent, hm]
  · cases hidx : s2.attendanceHistory.findIdx? (isTodayIncomplete tz2 today2) with
    | none =>
      unfold autoMarkStudent at hauto
      rw [hidx] at hauto
      cases hauto
    | some i =>
      unfold autoMarkStudent at hauto
      rw [hidx] at hauto
      have h3 : some
          ({ s2 with
             attendanceHistory := closeAt leaveT i s2.attendanceHistory
             lastAttendance := some leaveT
             attendancePercentage :=
               computePercentage (closeAt leaveT i s2.attendanceHistory) } : Student)
          = some s3 := hauto
      cases h3
      rfl

/-- Witness for C4: concrete recompute after each sweep on the demo data. -/
theorem percentage_recompute_formula_witness :
    computePercentage [] = 0
    ∧ computePercentage s8demo.attendanceHistory
        = 100 * ((s8demo.attendanceHistory.countP (fun r => isPresentLike r) : Rat))
            / (s8demo.attendanceHistory.length : Rat)
    ∧ (∀ r : AttendanceRecord, r.status = "left" → isPresentLike r = false)
    ∧ (sweepStudent 0 4320 s8demo).attendancePercentage
        = computePercentage (sweepStudent 0 4320 s8demo).attendanceHistory
    ∧ autoDemoRes.attendancePercentage = computePercentage autoDemoRes.attendanceHistory :=
  percentage_recompute_formula 0 4320 0 0 1110 s8demo.attendanceHistory s8demo autoDemo
    autoDemoRes (by decide) (by decide) rfl

/-- Claim C6: in the same-day sweep each eligible student's closure is saved
before any notification is attempted for it; the saved documents do not
depend on the notification outcomes (failures included) and cover every
eligible student, so one student's failed notification neither undoes that
closure nor stops the sweep from processing the remaining students. -/
theorem sweep_saves_independent_of_notify (tz today leaveT : Int)
    (o1 o2 : String → Bool) (students : List Student) :
    (autoMarkLeaveAttendance tz today leaveT o1 students).1
      = (autoMarkLeaveAttendance tz today leaveT o2 students).1
    ∧ (autoMarkLeaveAttendance tz today leaveT o1 students).1
        = students.filterMap (autoMarkStudent tz today leaveT)
    ∧ (autoMarkLeaveAttendance tz today leaveT o1 students).2
        = students.flatMap (fun s =>
            match autoMarkStudent tz today leaveT s with
            | none => []
            | some s2 =>
              AutoMarkEvent.saved s2 ::
                (if s2.parent_telephone.isSome then
                  [AutoMarkEvent.notifyAttempt s2.name (o1 s2.name)]
                else [])) := by
  induction students with
  | nil => exact ⟨rfl, rfl, rfl⟩
  | cons s rest ih =>
    cases ha : autoMarkStudent tz today leaveT s with
    | none =>
      simpa [autoMarkLeaveAttendance, ha, List.filterMap_cons, List.flatMap_cons] using ih
    | some s2 =>
      refine ⟨?_, ?_, ?_⟩
      · simp only [autoMarkLeaveAttendance, ha]
        rw [ih.1]
      · simp only [autoMarkLeaveAttendance, ha, List.filterMap_cons]
        rw [ih.2.1]
      · simp only [autoMarkLeaveAttendance, ha, List.flatMap_cons]
        rw [ih.2.2]

theorem findTodayRecord_eq_none_iff (d : Int) :
    ∀ h : List AttendanceRecord,
      findTodayRecord d h = none ↔ ∀ r ∈ h, utcDayOf r.date ≠ d
  | [] => by simp [findTodayRecord]
  | r :: rs => by
    by_cases hr : utcDayOf r.date = d
    · simp [findTodayRecord, hr]
    · simp [findTodayRecord, hr, findTodayRecord_eq_none_iff d rs]

theorem findTodayRecord_append_of_none (d : Int) :
    ∀ (h l : List AttendanceRecord), findTodayRecord d h = none →
      findTodayRecord d (h ++ l) = findTodayRecord d l
  | [], l, _ => rfl
  | r :: rs, l, hnone => by
    have hc : (utcDayOf r.date == d) = false := by
      by_cases hc : (utcDayOf r.date == d) = true
      · simp [findTodayRecord, hc] at hnone
      · simpa using hc
    have hrs : findTodayRecord d rs = none := by
      simpa [findTodayRecord, hc] using hnone
    simp [findTodayRecord, hc, findTodayRecord_append_of_none d rs l hrs]

theorem modelMark_of_none (d now : Int) (st : String) :
    ∀ h : List AttendanceRecord, findTodayRecord d h = none →
      modelMarkAttendance d now st h = h ++ [modelNewRecord d now st]
  | [], _ => rfl
  | r :: rs, hnone => by
    have hc : (utcDayOf r.date == d) = false := by
      by_cases hc : (utcDayOf r.date == d) = true
      · simp [findTodayRecord, hc] at hnone
      · simpa using hc
    have hrs : findTodayRecord d rs = none := by
      simpa [findTodayRecord, hc] using hnone
    simp [modelMarkAttendance, hc, modelMark_of_none d now st rs hrs]

theorem modelMark_append_of_none (d now : Int) (st : String) :
    ∀ (h l : List AttendanceRecord), findTodayRecord d h = none →
      modelMarkAttendance d now st (h ++ l) = h ++ modelMarkAttendance d now st l
  | [], l, _ => rfl
  | r :: rs, l, hnone => by
    have hc : (utcDayOf r.date == d) = false := by
      by_cases hc : (utcDayOf r.date == d) = true
      · simp [findTodayRecord, hc] at hnone
      · simpa using hc
    have hrs : findTodayRecord d rs = none := by
      simpa [findTodayRecord, hc] using hnone
    simp [modelMarkAttendance, hc, modelMark_append_of_none d now st rs l hrs]

theorem modelMutateRecord_date (now : Int) (st : String) (r : AttendanceRecord) :
    (modelMutateRecord now st r).date = r.date := by
  unfold modelMutateRecord
  split <;> rfl

theorem modelNewRecord_date (d now : Int) (st : String) :
    (modelNewRecord d now st).date = d * minutesPerDay := by
  unfold modelNewRecord
  split <;> rfl

theorem utcDayOf_midnight (d : Int) : utcDayOf (d * minutesPerDay) = d := by
  unfold utcDayOf minutesPerDay
  exact Int.mul_fdiv_cancel d (by norm_num)

theorem modelMark_days_of_found (d now : Int) (st : String) :
    ∀ h : List AttendanceRecord, findTodayRecord d h ≠ none →
      (modelMarkAttendance d now st h).map (fun r => utcDayOf r.date)
        = h.map (fun r => utcDayOf r.date)
  | [], hne => absurd rfl hne
  | r :: rs, hne => by
    by_cases hc : (utcDayOf r.date == d) = true
    · simp [modelMarkAttendance, hc, modelMutateRecord_date]
    · have hc2 : (utcDayOf r.date == d) = false := by simpa using hc
      have hne2 : findTodayRecord d rs ≠ none := by
        simpa [findTodayRecord, hc2] using hne
      simp [modelMarkAttendance, hc2, modelMark_days_of_found d now st rs hne2]

theorem oneRecordPerDay_iff_days (h : List AttendanceRecord) :
    oneRecordPerDay h
      ↔ (h.map (fun r => utcDayOf r.date)).Pairwise (fun a b => a ≠ b) := by
  rw [oneRecordPerDay, List.pairwise_map]

/-- Claim C1 (model method spec-modelled, decision logic from the source):
a scan preserves the at-most-one-record-per-calendar-day invariant, and when
a record for the scan's day already exists the scan mutates it in place and
never appends a second record for that day (the history length is
unchanged). -/
theorem scan_preserves_one_record_per_day (now : Int) (h : List AttendanceRecord)
    (hinv : oneRecordPerDay h) :
    oneRecordPerDay (markAttendance now h)
    ∧ (findTodayRecord (utcDayOf now) h ≠ none →
        (markAttendance now h).length = h.length) := by
  constructor
  · by_cases hn : findTodayRecord (utcDayOf now) h = none
    · rw [markAttendance, modelMark_of_none _ _ _ h hn]
      rw [oneRecordPerDay, List.pairwise_append]
      refine ⟨hinv, List.pairwise_singleton _ _, ?_⟩
      intro a ha b hb
      have hbq : b = modelNewRecord (utcDayOf now) now (scanStatusOf now h) := by
        simpa using hb
      rw [hbq, modelNewRecord_date, utcDayOf_midnight]
      exact (findTodayRecord_eq_none_iff _ h).mp hn a ha
    · rw [oneRecordPerDay_iff_days, markAttendance,
        modelMark_days_of_found _ _ _ h hn, ← oneRecordPerDay_iff_days]
      exact hinv
  · intro hn
    have hdays := modelMark_days_of_found (utcDayOf now) now (scanStatusOf now h) h hn
    have hlen := congrArg List.length hdays
    simpa [markAttendance] using hlen

/-- Witness for C1: scanning s8demo (records on days 0 and 2) at t = 500
(day 0) keeps the invariant and, because day 0 already has a record, leaves
the history length unchanged. -/
theorem scan_preserves_one_record_per_day_witness :
    oneRecordPerDay (markAttendance 500 s8demo.attendanceHistory)
    ∧ (findTodayRecord (utcDayOf 500) s8demo.attendanceHistory ≠ none →
        (markAttendance 500 s8demo.attendanceHistory).length
          = s8demo.attendanceHistory.length) :=
  scan_preserves_one_record_per_day 500 s8demo.attendanceHistory
    (by unfold oneRecordPerDay; decide)

/-- Claim C3 (model method spec-modelled, decision logic from the source):
with no record on the scan's day, a first scan creates an entered record with
entryTime t1; a second same-day scan closes the same record (status left,
leaveTime t2, and with t1 < t2 its entryTime t1 is before its leaveTime t2);
a third same-day scan re-opens that record to entered with fresh entryTime
t3, the day still holding exactly one record; and a record carrying neither
entryTime nor leaveTime is treated as an entry. -/
theorem scan_state_machine (t1 t2 t3 : Int) (h : List AttendanceRecord)
    (hnone : findTodayRecord (utcDayOf t1) h = none)
    (hd2 : utcDayOf t2 = utcDayOf t1) (hd3 : utcDayOf t3 = utcDayOf t1)
    (h12 : t1 < t2) :
    markAttendance t1 h
        = h ++ [{ date := utcDayOf t1 * minutesPerDay, status := "entered",
                  entryTime := some t1, leaveTime := none }]
    ∧ markAttendance t2 (markAttendance t1 h)
        = h ++ [{ date := utcDayOf t1 * minutesPerDay, status := "left",
                  entryTime := some t1, leaveTime := some t2 }]
    ∧ t1 < t2
    ∧ markAttendance t3 (markAttendance t2 (markAttendance t1 h))
        = h ++ [{ date := utcDayOf t1 * minutesPerDay, status := "entered",
                  entryTime := some t3, leaveTime := none }]
    ∧ (markAttendance t3 (markAttendance t2 (markAttendance t1 h))).length
        = h.length + 1
    ∧ (∀ (t : Int) (h0 : List AttendanceRecord) (r : AttendanceRecord),
        findTodayRecord (utcDayOf t) h0 = some r → r.entryTime = none →
        r.leaveTime = none → scanStatusOf t h0 = "entered") := by
  have h1eq : markAttendance t1 h
      = h ++ [{ date := utcDayOf t1 * minutesPerDay, status := "entered",
                entryTime := some t1, leaveTime := none }] := by
    rw [markAttendance, modelMark_of_none _ _ _ h hnone]
    simp [scanStatusOf, hnone, decideStatus, modelNewRecord]
  have hfind1 : findTodayRecord (utcDayOf t1)
      (h ++ [{ date := utcDayOf t1 * minutesPerDay, status := "entered",
               entryTime := some t1, leaveTime := none }])
      = some { date := utcDayOf t1 * minutesPerDay, status := "entered",
               entryTime := some t1, leaveTime := none } := by
    rw [findTodayRecord_append_of_none _ h _ hnone]
    simp [findTodayRecord, utcDayOf_midnight]
  have h2eq : markAttendance t2 (markAttendance t1 h)
      = h ++ [{ date := utcDayOf t1 * minutesPerDay, status := "left",
                entryTime := some t1, leaveTime := some t2 }] := by
    rw [h1eq, markAttendance, hd2]
    rw [modelMark_append_of_none _ _ _ h _ hnone]
    simp [scanStatusOf, hd2, hfind1, decideStatus, modelMarkAttendance,
      utcDayOf_midnight, modelMutateRecord]
  have hfind2 : findTodayRecord (utcDayOf t1)
      (h ++ [{ date := utcDayOf t1 * minutesPerDay, status := "left",
               entryTime := some t1, leaveTime := some t2 }])
      = some { date := utcDayOf t1 * minutesPerDay, status := "left",
               entryTime := some t1, leaveTime := some t2 } := by
    rw [findTodayRecord_append_of_none _ h _ hnone]
    simp [findTodayRecord, utcDayOf_midnight]
  have h3eq : markAttendance t3 (markAttendance t2 (markAttendance t1 h))
      = h ++ [{ date := utcDayOf t1 * minutesPerDay, status := "entered",
                entryTime := some t3, leaveTime := none }] := by
    rw [h2eq, markAttendance, hd3]
    rw [modelMark_append_of_none _ _ _ h _ hnone]
    simp [scanStatusOf, hd3, hfind2, decideStatus, modelMarkAttendance,
      utcDayOf_midnight, modelMutateRecord]
  refine ⟨h1eq, h2eq, h12, h3eq, ?_, ?_⟩
  · rw [h3eq]
    simp
  · intro t h0 r hfind hentry hleave
    rw [scanStatusOf, hfind]
    simp [decideStatus, hentry, hleave]

/-- Witness for C3: the three-scan scenario on an empty history at
t = 540, 900, 1000 (all UTC day 0). -/
theorem scan_state_machine_witness :
    markAttendance 540 ([] : List AttendanceRecord)
        = [] ++ [{ date := utcDayOf 540 * minutesPerDay, status := "entered",
                   entryTime := some 540, leaveTime := none }]
    ∧ markAttendance 900 (markAttendance 540 ([] : List AttendanceRecord))
        = [] ++ [{ date := utcDayOf 540 * minutesPerDay, status := "left",
                   entryTime := some 540, leaveTime := some 900 }]
    ∧ (540 : Int) < 900
    ∧ markAttendance 1000 (markAttendance 900 (markAttendance 540 ([] : List AttendanceRecord)))
        = [] ++ [{ date := utcDayOf 540 * minutesPerDay, status := "entered",
                   entryTime := some 1000, leaveTime := none }]
    ∧ (markAttendance 1000 (markAttendance 900 (markAttendance 540
        ([] : List AttendanceRecord)))).length = List.length ([] : List AttendanceRecord) + 1
    ∧ (∀ (t : Int) (h0 : List AttendanceRecord) (r : AttendanceRecord),
        findTodayRecord (utcDayOf t) h0 = some r → r.entryTime = none →
        r.leaveTime = none → scanStatusOf t h0 = "entered") :=
  scan_state_machine 540 900 1000 [] (by decide) (by decide) (by decide) (by decide)

/-- Claim C5 counterexample: at t = 1200 (20:00 UTC) under the Asia/Colombo
offset of 330 minutes used by the deployment (hard-coded elsewhere in the
source), the scan path buckets the timestamp on UTC day 0 while the sweep
paths bucket it on local day 1 — the two paths do not share one calendar
convention. -/
theorem day_bucketing_mismatch : utcDayOf 1200 ≠ localDayOf 330 1200 := by decide

/-- Claim C5 (amended): the scan path buckets timestamps by UTC calendar day
and the sweeps by local calendar day; the local day of t is the UTC day of
the shifted instant t + tz, and the two conventions assign the same day to
every timestamp exactly when the offset tz is zero. -/
theorem scan_sweep_day_conventions (tz t : Int) :
    localDayOf tz t = utcDayOf (t + tz)
    ∧ ((∀ u : Int, localDayOf tz u = utcDayOf u) ↔ tz = 0) := by
  refine ⟨rfl, ?_, ?_⟩
  · intro hall
    have h0 := hall 0
    have h1 := hall (-tz)
    unfold localDayOf utcDayOf minutesPerDay at h0 h1
    rw [Int.fdiv_eq_ediv _ (by norm_num), Int.fdiv_eq_ediv _ (by norm_num)] at h0 h1
    omega
  · intro hz
    subst hz
    intro u
    simp [localDayOf, utcDayOf]

/-- Witness for C5 (amended): concrete agreement of the shifted bucketing,
and full agreement of the two paths under offset zero. -/
theorem scan_sweep_day_conventions_witness :
    localDayOf 330 1200 = utcDayOf (1200 + 330)
    ∧ (∀ u : Int, localDayOf 0 u = utcDayOf u) :=
  ⟨(scan_sweep_day_conventions 330 1200).1,
   (scan_sweep_day_conventions 0 0).2.mpr rfl⟩

/-- Claim C9 counterexample: the manual-override entry point answers the
status late with the invalid-status rejection and leaves the student
untouched, although the claim includes late in its accepted enum. -/
theorem manual_mark_rejects_late :
    markStudentAttendance "late" 600 s8demo = (s8demo, false) := by decide

/-- Claim C9 (amended): the manual-override entry point accepts exactly the
statuses entered, left, present and absent; any other requested status —
late included — is rejected with the invalid-status error without mutating
the student. -/
theorem manual_mark_status_enum (st : String) (now : Int) (s : Student) :
    ((markStudentAttendance st now s).2 = true
      ↔ (st = "entered" ∨ st = "left" ∨ st = "present" ∨ st = "absent"))
    ∧ ((markStudentAttendance st now s).2 = false
        → markStudentAttendance st now s = (s, false)) := by
  by_cases hc : validStatus.contains st = true
  · have hmem : st = "entered" ∨ st = "left" ∨ st = "present" ∨ st = "absent" := by
      have hm := hc
      simp [validStatus] at hm
      tauto
    rw [markStudentAttendance, if_pos hc]
    refine ⟨⟨fun _ => hmem, fun _ => rfl⟩, fun hf => ?_⟩
    simp at hf
  · have hc2 : validStatus.contains st = false := by simpa using hc
    have hnm : ¬(st = "entered" ∨ st = "left" ∨ st = "present" ∨ st = "absent") := by
      intro hor
      apply hc
      simp [validStatus]
      tauto
    rw [markStudentAttendance, if_neg hc]
    refine ⟨⟨fun hf => absurd hf (by simp), fun hor => absurd hor hnm⟩,
      fun _ => rfl⟩

/-- Witness for C9 (amended): at the concrete status late the entry point
reports rejection and returns the student unchanged. -/
theorem manual_mark_status_enum_witness :
    (((markStudentAttendance "late" 600 s8demo).2 = true
      ↔ ("late" = "entered" ∨ "late" = "left" ∨ "late" = "present" ∨ "late" = "absent"))
    ∧ ((markStudentAttendance "late" 600 s8demo).2 = false
        → markStudentAttendance "late" 600 s8demo = (s8demo, false))) :=
  manual_mark_status_enum "late" 600 s8demo

/-- Claim C10 counterexample: an active student with no record on the queried
day is omitted from the attendance-by-date view entirely rather than being
reported absent with null times. -/
theorem byDate_omits_recordless_student :
    sAbsDemo.status = "active"
    ∧ sAbsDemo.attendanceHistory = []
    ∧ getAttendanceByDate 0 0 [sAbsDemo] = [] := ⟨rfl, rfl, rfl⟩

/-- Claim C10 (amended): the today view reports every active student with no
record on the queried day as absent with null entry and leave times, but the
attendance-by-date view returns exactly one row per student having a record
on the day and omits the students with none. -/
theorem day_views_absent_handling (tz d : Int) (students : List Student) (s : Student)
    (hmem : s ∈ students) (hact : s.status = "active")
    (hnorec : ∀ r ∈ s.attendanceHistory, utcDayOf r.date ≠ d) :
    ({ name := s.name, status := "absent", entryTime := none, leaveTime := none } : DayViewEntry)
        ∈ getScannedStudentsToday d students
    ∧ (getAttendanceByDate tz d students).length
        = students.countP (hasRecordOn tz d) := by
  constructor
  · have hfilter : s.attendanceHistory.filter (fun r => utcDayOf r.date == d) = [] := by
      rw [List.filter_eq_nil_iff]
      intro r hr
      simpa using hnorec r hr
    have hentry : scannedTodayEntry d s
        = { name := s.name, status := "absent", entryTime := none, leaveTime := none } := by
      unfold scannedTodayEntry
      rw [hfilter]
      rfl
    rw [getScannedStudentsToday]
    refine List.mem_map.mpr ⟨s, ?_, hentry⟩
    exact List.mem_filter.mpr ⟨hmem, by simp [hact]⟩
  · rw [getAttendanceByDate, List.length_map, ← List.countP_eq_length_filter]

/-- Witness for C10 (amended): sAbsDemo is reported absent by the today view
and contributes no row to the by-date view. -/
theorem day_views_absent_handling_witness :
    ({ name := sAbsDemo.name, status := "absent", entryTime := none,
       leaveTime := none } : DayViewEntry)
        ∈ getScannedStudentsToday 0 [sAbsDemo]
    ∧ (getAttendanceByDate 0 0 [sAbsDemo]).length
        = List.countP (hasRecordOn 0 0) [sAbsDemo] :=
  day_views_absent_handling 0 0 [sAbsDemo] sAbsDemo (by simp) rfl (by simp [sAbsDemo])
